import Mathlib

/-!
Verification development for the QMK keyboard companion scripts
(`keyboard_monitor.py` and the keyboard-side `highscore_manager.py`).

The Python code is shallowly embedded: each relevant Python function is
translated into an executable Lean definition operating on explicit state.
Python's stable `list.sort(key=..., reverse=True)` is modelled by a stable
insertion sort (`pySortDesc`) that is sorted descending and keeps elements
with equal keys in their original relative order, which is exactly the
documented behaviour of Python's sort.  Machine integers do not overflow in
the modelled fragment (scores are clamped explicitly by the code), so
scores are `Nat`.  Python exceptions (out-of-range list indexing) are
modelled with `Option`: `none` is a raised exception.
-/

/-- One leaderboard entry, mirroring the Python dict `{'name': ..., 'score': ...}`. -/
structure Entry where
  name : String
  score : Nat
deriving DecidableEq, Repr

instance : Inhabited Entry := ⟨⟨"", 0⟩⟩

/-- Stable insertion step: place `x` before the first element whose score is
not above `x`'s.  Used left-to-right via `foldr`, this yields exactly a
stable descending sort. -/
def insertDesc (x : Entry) : List Entry → List Entry
  | [] => [x]
  | y :: ys => if y.score ≤ x.score then x :: y :: ys else y :: insertDesc x ys

/-- Model of Python's `list.sort(key=lambda e: e['score'], reverse=True)`:
stable sort, descending by score (equal scores keep original order). -/
def pySortDesc (l : List Entry) : List Entry := l.foldr insertDesc []

/-- Insert `e` after every element whose score is at least `e.score`.
For a sorted list this is where a stable descending sort places a
newly-appended element (ties keep submission order). -/
def insertRight (e : Entry) : List Entry → List Entry
  | [] => [e]
  | y :: ys => if e.score ≤ y.score then y :: insertRight e ys else e :: y :: ys

/-- Sorted by score, descending (non-strictly). -/
def SortedDesc (l : List Entry) : Prop :=
  List.Pairwise (fun x y => y.score ≤ x.score) l

/-- `HighScoreManager.load_scores`: sort the stored data descending, keep the
top 10.  A missing or corrupt store is the empty list. -/
def load_scores (data : List Entry) : List Entry :=
  (pySortDesc data).take 10

/-- The Python `for i, entry in enumerate(...): if p(entry): rank = i; break`
pattern: index of the first element satisfying `p`. -/
def findRank (p : Entry → Bool) : List Entry → Option Nat
  | [] => none
  | y :: ys => if p y then some 0 else (findRank p ys).map (· + 1)

/-- `HighScoreManager.add_score`: append the entry, stable-sort descending,
find the first index whose name and score match, truncate to 10, return the
new table and the rank (`-1` when the found rank is not below 10). -/
def add_score (scores : List Entry) (name : String) (score : Nat) :
    List Entry × Int :=
  let appended := scores ++ [⟨name, score⟩]
  let sorted := pySortDesc appended
  let rank : Int :=
    match findRank (fun e => e.name == name && e.score == score) sorted with
    | some i => (i : Int)
    | none => -1
  (sorted.take 10, if rank < 10 then rank else -1)

/-- `HighScoreManager.check_score`: fewer than 10 entries means automatic
entry at the next slot; otherwise the score must strictly beat the 10th
entry, and the would-be rank is the first index it strictly beats
(falling back to 9). -/
def check_score (scores : List Entry) (score : Nat) : Int :=
  if scores.length < 10 then (scores.length : Int)
  else if (scores.getD 9 default).score < score then
    match findRank (fun e => e.score < score) scores with
    | some i => (i : Int)
    | none => 9
  else -1

/-- Manager state with a count of durable-storage writes, to make the
side-effect footprint of each method explicit. -/
structure MState where
  scores : List Entry
  saves : Nat
deriving DecidableEq, Repr

/-- `add_score` as a method call: mutates `self.scores` and calls
`save_scores` (one durable write). -/
def add_score_m (st : MState) (name : String) (score : Nat) : Int × MState :=
  let r := add_score st.scores name score
  (r.2, ⟨r.1, st.saves + 1⟩)

/-- `check_score` as a method call: its Python body contains no assignment
to `self.scores` and no `save_scores` call, so the state is returned
unchanged. -/
def check_score_m (st : MState) (score : Nat) : Int × MState :=
  (check_score st.scores score, st)

/-- Leaderboard states reachable by the program: a table loaded from
storage at startup, followed by any sequence of `add_score` calls. -/
inductive Reachable : List Entry → Prop
  | loaded (data : List Entry) : Reachable (load_scores data)
  | step (s : List Entry) (name : String) (score : Nat) :
      Reachable s → Reachable (add_score s name score).1

example : pySortDesc [⟨"A", 1⟩, ⟨"B", 5⟩, ⟨"C", 5⟩] =
    [⟨"B", 5⟩, ⟨"C", 5⟩, ⟨"A", 1⟩] := by decide

example : (add_score [⟨"B", 5⟩] "A" 5).1 = [⟨"B", 5⟩, ⟨"A", 5⟩] := by decide

example : check_score [⟨"B", 5⟩] 3 = 1 := by decide

/-! ### Lemmas about the stable sort -/

theorem mem_insertDesc {x y : Entry} {l : List Entry} :
    y ∈ insertDesc x l ↔ y = x ∨ y ∈ l := by
  induction l with
  | nil => simp [insertDesc]
  | cons z zs ih =>
    by_cases h : z.score ≤ x.score
    · simp only [insertDesc, if_pos h, List.mem_cons]
    · simp only [insertDesc, if_neg h, List.mem_cons, ih]
      tauto

theorem insertDesc_sorted {x : Entry} {l : List Entry} (h : SortedDesc l) :
    SortedDesc (insertDesc x l) := by
  induction l with
  | nil => simp [insertDesc, SortedDesc]
  | cons y ys ih =>
    rcases List.pairwise_cons.mp h with ⟨hy, hys⟩
    by_cases hc : y.score ≤ x.score
    · simp only [insertDesc, if_pos hc]
      refine List.pairwise_cons.mpr ⟨?_, h⟩
      intro z hz
      rcases List.mem_cons.mp hz with rfl | hz
      · exact hc
      · exact le_trans (hy z hz) hc
    · simp only [insertDesc, if_neg hc]
      refine List.pairwise_cons.mpr ⟨?_, ih hys⟩
      intro z hz
      rcases mem_insertDesc.mp hz with rfl | hz
      · exact Nat.le_of_lt (Nat.lt_of_not_le hc)
      · exact hy z hz

theorem pySortDesc_sorted (l : List Entry) : SortedDesc (pySortDesc l) := by
  induction l with
  | nil => simp [pySortDesc, SortedDesc]
  | cons y ys ih => exact insertDesc_sorted ih

theorem insertDesc_of_max {y : Entry} {ys : List Entry}
    (h : ∀ z ∈ ys, z.score ≤ y.score) : insertDesc y ys = y :: ys := by
  cases ys with
  | nil => rfl
  | cons z zs => simp [insertDesc, h z (by simp)]

/-- On a sorted list, appending a new element and stable-sorting places the
new element after every element whose score is at least its own. -/
theorem pySortDesc_append_singleton {l : List Entry} (e : Entry) (h : SortedDesc l) :
    pySortDesc (l ++ [e]) = insertRight e l := by
  induction l with
  | nil => rfl
  | cons y ys ih =>
    rcases List.pairwise_cons.mp h with ⟨hy, hys⟩
    have hstep : pySortDesc ((y :: ys) ++ [e]) = insertDesc y (pySortDesc (ys ++ [e])) := rfl
    rw [hstep, ih hys]
    by_cases hc : e.score ≤ y.score
    · have hR : insertRight e (y :: ys) = y :: insertRight e ys := by
        simp [insertRight, hc]
      rw [hR]
      cases ys with
      | nil => simp [insertRight, insertDesc, hc]
      | cons z zs =>
        by_cases hz : e.score ≤ z.score
        · simp [insertRight, hz, insertDesc, hy z (by simp)]
        · simp [insertRight, hz, insertDesc, hc]
    · have h1 : insertRight e (y :: ys) = e :: y :: ys := by
        simp [insertRight, hc]
      have h2 : insertRight e ys = e :: ys := by
        cases ys with
        | nil => rfl
        | cons z zs =>
          have hz : ¬ e.score ≤ z.score := fun hle => hc (le_trans hle (hy z (by simp)))
          simp [insertRight, hz]
      rw [h1, h2]
      have hye : ¬ e.score ≤ y.score := hc
      simp only [insertDesc, if_neg hye]
      rw [insertDesc_of_max hy]

theorem insertRight_sorted {l : List Entry} (e : Entry) (h : SortedDesc l) :
    SortedDesc (insertRight e l) := by
  rw [← pySortDesc_append_singleton e h]
  exact pySortDesc_sorted _

theorem insertRight_eq_append (e : Entry) (l : List Entry) :
    insertRight e l =
      l.takeWhile (fun y => e.score ≤ y.score) ++
        e :: l.dropWhile (fun y => e.score ≤ y.score) := by
  induction l with
  | nil => rfl
  | cons y ys ih =>
    by_cases h : e.score ≤ y.score
    · simp [insertRight, List.takeWhile_cons, List.dropWhile_cons, h, ih]
    · simp [insertRight, List.takeWhile_cons, List.dropWhile_cons, h]

/-- `add_score` on a sorted table: the stored result is the stable insertion
of the new entry (after all entries with an equal or higher score),
truncated to ten entries. -/
theorem add_score_fst_of_sorted {scores : List Entry} (h : SortedDesc scores)
    (n : String) (sc : Nat) :
    (add_score scores n sc).1 = (insertRight ⟨n, sc⟩ scores).take 10 := by
  simp only [add_score]
  rw [pySortDesc_append_singleton _ h]

theorem reachable_inv {s : List Entry} (h : Reachable s) :
    s.length ≤ 10 ∧ SortedDesc s := by
  induction h with
  | loaded data =>
    refine ⟨?_, (pySortDesc_sorted data).sublist (List.take_sublist _ _)⟩
    simp [load_scores]
  | step s n sc hr ih =>
    rw [add_score_fst_of_sorted ih.2]
    refine ⟨?_, (insertRight_sorted _ ih.2).sublist (List.take_sublist _ _)⟩
    simp

/-- C1: every reachable leaderboard state has at most 10 entries and is
sorted by score descending; each `add_score` inserts the new entry after
all entries with an equal or higher score (so equal scores keep submission
order, first-submitted ranked higher), truncates to 10, and the result
again has at most 10 entries and is sorted descending. -/
theorem C1_leaderboard_invariant (s : List Entry) (h : Reachable s)
    (n : String) (sc : Nat) :
    (s.length ≤ 10 ∧ SortedDesc s) ∧
    (add_score s n sc).1 = (insertRight ⟨n, sc⟩ s).take 10 ∧
    (add_score s n sc).1.length ≤ 10 ∧ SortedDesc (add_score s n sc).1 := by
  have hinv := reachable_inv h
  have hstep := reachable_inv (Reachable.step s n sc h)
  exact ⟨hinv, add_score_fst_of_sorted hinv.2 n sc, hstep.1, hstep.2⟩

/-- C10: `check_score` is effect-free — as a method call it leaves the
manager state (score table and durable-storage write count) unchanged,
repeated calls return the same result, and the result depends only on the
score table. -/
theorem C10_check_score_pure (st : MState) (score : Nat) :
    (check_score_m st score).2 = st ∧
    (check_score_m (check_score_m st score).2 score).1 =
      (check_score_m st score).1 ∧
    (check_score_m st score).1 = check_score st.scores score :=
  ⟨rfl, rfl, rfl⟩

/-! ### Lemmas about `findRank` and `takeWhile` -/

theorem findRank_append_le {p : Entry → Bool} {e : Entry} (A B : List Entry)
    (he : p e = true) :
    ∃ i, findRank p (A ++ e :: B) = some i ∧ i ≤ A.length := by
  induction A with
  | nil => exact ⟨0, by simp [findRank, he], Nat.zero_le _⟩
  | cons a as ih =>
    by_cases ha : p a
    · exact ⟨0, by simp [findRank, ha], Nat.zero_le _⟩
    · rcases ih with ⟨i, hi, hle⟩
      exact ⟨i + 1, by simp [findRank, ha, hi], by simpa using Nat.succ_le_succ hle⟩

theorem findRank_eq_length_takeWhile {p q : Entry → Bool}
    (hq : ∀ y, q y = !(p y)) : ∀ l : List Entry, l.dropWhile q ≠ [] →
    findRank p l = some (l.takeWhile q).length := by
  intro l
  induction l with
  | nil => intro h; simp [List.dropWhile] at h
  | cons y ys ih =>
    intro h
    by_cases hp : p y
    · have hqy : q y = false := by simp [hq, hp]
      simp [findRank, hp, List.takeWhile_cons, hqy]
    · have hqy : q y = true := by simp [hq y, hp]
      have h2 : ys.dropWhile q ≠ [] := by
        simpa [List.dropWhile_cons, hqy] using h
      simp [findRank, hp, List.takeWhile_cons, hqy, ih h2]

theorem length_takeWhile_mono {p q : Entry → Bool}
    (h : ∀ y, p y = true → q y = true) :
    ∀ l : List Entry, (l.takeWhile p).length ≤ (l.takeWhile q).length := by
  intro l
  induction l with
  | nil => simp
  | cons y ys ih =>
    by_cases hp : p y
    · simp only [List.takeWhile_cons, hp, h y hp, List.length_cons]
      exact Nat.succ_le_succ ih
    · simp [List.takeWhile_cons, hp]

theorem length_takeWhile_le_length (q : Entry → Bool) (l : List Entry) :
    (l.takeWhile q).length ≤ l.length :=
  List.Sublist.length_le (List.takeWhile_sublist q)

theorem takeWhile_getD {q : Entry → Bool} :
    ∀ (l : List Entry) (i : Nat), i < (l.takeWhile q).length →
      q (l.getD i default) = true := by
  intro l
  induction l with
  | nil => simp
  | cons y ys ih =>
    intro i hi
    by_cases hy : q y
    · cases i with
      | zero => simpa using hy
      | succ i =>
        simp only [List.takeWhile_cons, hy, if_true, List.length_cons] at hi
        simpa using ih i (Nat.lt_of_succ_lt_succ hi)
    · simp [List.takeWhile_cons, hy] at hi

/-- C2: if `check_score` accepts a score `sc` with rank `r`, then
`add_score` with any score `sc2 ≥ sc`, called on the same (sorted) table,
returns an actual rank (not `-1`) that is at most `r`. -/
theorem C2_checkRank_consistent (scores : List Entry) (n : String) (sc sc2 : Nat)
    (hs : SortedDesc scores) (hr : check_score scores sc ≠ -1) (hle : sc ≤ sc2) :
    0 ≤ (add_score scores n sc2).2 ∧
    (add_score scores n sc2).2 ≤ check_score scores sc := by
  classical
  set e : Entry := ⟨n, sc2⟩ with he
  have hsort : pySortDesc (scores ++ [e]) = insertRight e scores :=
    pySortDesc_append_singleton e hs
  have hsplit := insertRight_eq_append e scores
  set A := scores.takeWhile (fun y => e.score ≤ y.score) with hA
  set B := scores.dropWhile (fun y => e.score ≤ y.score) with hB
  have hpe : (fun x => x.name == n && x.score == sc2) e = true := by simp [he]
  obtain ⟨i, hi, hile⟩ :=
    findRank_append_le (p := fun x => x.name == n && x.score == sc2) A B hpe
  -- the rank computed inside add_score
  have hadd : (add_score scores n sc2).2 = if (i : Int) < 10 then (i : Int) else -1 := by
    simp only [add_score, he] at *
    rw [hsort, hsplit, hi]
  -- A is the entries with score ≥ sc2; it is no longer than the entries with score ≥ sc
  have hmono : A.length ≤ (scores.takeWhile (fun y => sc ≤ y.score)).length := by
    rw [hA]
    refine length_takeWhile_mono (fun y hy => ?_) scores
    simp only [he, decide_eq_true_eq] at hy ⊢
    exact le_trans hle hy
  by_cases hlen : scores.length < 10
  · -- table not full: check_score returns the table length
    have hcheck : check_score scores sc = (scores.length : Int) := by
      simp [check_score, hlen]
    have hi9 : i < 10 := by
      have := le_trans hile (le_trans hmono (length_takeWhile_le_length _ _))
      omega
    have : (add_score scores n sc2).2 = (i : Int) := by
      rw [hadd, if_pos (by exact_mod_cast hi9)]
    rw [this, hcheck]
    constructor
    · exact Int.ofNat_nonneg i
    · exact_mod_cast le_trans hile (le_trans hmono (length_takeWhile_le_length _ _))
  · -- table full: check_score demands beating the 10th entry
    have h9 : (scores.getD 9 default).score < sc := by
      by_contra h9
      apply hr
      rw [List.getD_eq_getElem?_getD] at h9
      simp [check_score, hlen, h9]
    have h9e := h9
    rw [List.getD_eq_getElem?_getD] at h9e
    have hmem : scores.getD 9 default ∈ scores := by
      have h9lt : 9 < scores.length := by omega
      rw [List.getD_eq_getElem _ _ h9lt]
      exact List.getElem_mem h9lt
    have hdrop : scores.dropWhile (fun y => sc ≤ y.score) ≠ [] := by
      intro hnil
      have := (List.dropWhile_eq_nil_iff).mp hnil _ hmem
      simp only [decide_eq_true_eq] at this
      omega
    have hfind : findRank (fun y => y.score < sc) scores =
        some (scores.takeWhile (fun y => sc ≤ y.score)).length := by
      refine findRank_eq_length_takeWhile (fun y => ?_) scores hdrop
      simp [← decide_not]
    set t := (scores.takeWhile (fun y => sc ≤ y.score)).length with ht
    have ht9 : t ≤ 9 := by
      by_contra hgt
      have := takeWhile_getD (q := fun y => decide (sc ≤ y.score)) scores 9 (by omega)
      simp only [decide_eq_true_eq] at this
      omega
    have hcheck : check_score scores sc = (t : Int) := by
      simp [check_score, hlen, h9e, hfind]
    have hi9 : i < 10 := by
      have := le_trans hile hmono
      omega
    have : (add_score scores n sc2).2 = (i : Int) := by
      rw [hadd, if_pos (by exact_mod_cast hi9)]
    rw [this, hcheck]
    exact ⟨Int.ofNat_nonneg i, by exact_mod_cast le_trans hile hmono⟩

/-- Witness for C2 at a concrete table. -/
theorem C2_witness :
    0 ≤ (add_score [⟨"BBB", 5⟩] "AAA" 4).2 ∧
    (add_score [⟨"BBB", 5⟩] "AAA" 4).2 ≤ check_score [⟨"BBB", 5⟩] 3 :=
  C2_checkRank_consistent [⟨"BBB", 5⟩] "AAA" 3 4
    (by simp [SortedDesc]) (by decide) (by decide)

theorem findRank_append_first {p : Entry → Bool} {e : Entry} (A B : List Entry)
    (hA : ∀ x ∈ A, p x = false) (he : p e = true) :
    findRank p (A ++ e :: B) = some A.length := by
  induction A with
  | nil => simp [findRank, he]
  | cons a as ih =>
    have ha : p a = false := hA a (by simp)
    have := ih (fun x hx => hA x (by simp [hx]))
    simp [findRank, ha, this]

theorem getD_append_cons (A B : List Entry) (e d : Entry) :
    (A ++ e :: B).getD A.length d = e := by
  induction A with
  | nil => rfl
  | cons a as ih => simpa using ih

theorem getD_take (d : Entry) :
    ∀ (l : List Entry) (m i : Nat), i < m → (l.take m).getD i d = l.getD i d := by
  intro l
  induction l with
  | nil => simp
  | cons a as ih =>
    intro m i h
    cases m with
    | zero => omega
    | succ m =>
      cases i with
      | zero => simp
      | succ i =>
        simp only [List.take_succ_cons, List.getD_cons_succ]
        exact ih m i (Nat.lt_of_succ_lt_succ h)

/-- C6 (amended): on a sorted table containing no entry with the submitted
name and score, `add_score` returns the 0-based index at which the
just-inserted entry sits in the sorted table (and the entry is stored
there), or `-1` with the entry absent from the stored table when it fell
outside the top 10.  (When a duplicate of the submitted name and score is
already present, the returned value is the index of the earliest duplicate
instead — see the counterexample.) -/
theorem C6_insert_rank (scores : List Entry) (n : String) (sc : Nat)
    (hs : SortedDesc scores)
    (hnodup : ∀ x ∈ scores, ¬(x.name = n ∧ x.score = sc)) :
    ((scores.takeWhile (fun y => sc ≤ y.score)).length < 10 →
      (add_score scores n sc).2 =
        ((scores.takeWhile (fun y => sc ≤ y.score)).length : Int) ∧
      (add_score scores n sc).1.getD
        (scores.takeWhile (fun y => sc ≤ y.score)).length default = ⟨n, sc⟩) ∧
    (10 ≤ (scores.takeWhile (fun y => sc ≤ y.score)).length →
      (add_score scores n sc).2 = -1 ∧
      (⟨n, sc⟩ : Entry) ∉ (add_score scores n sc).1) := by
  classical
  set e : Entry := ⟨n, sc⟩ with he
  have hsort : pySortDesc (scores ++ [e]) = insertRight e scores :=
    pySortDesc_append_singleton e hs
  have hsplit := insertRight_eq_append e scores
  set A := scores.takeWhile (fun y => e.score ≤ y.score) with hA
  set B := scores.dropWhile (fun y => e.score ≤ y.score) with hB
  have hAeq : scores.takeWhile (fun y => sc ≤ y.score) = A := rfl
  have hpe : (fun x => x.name == n && x.score == sc) e = true := by simp [he]
  have hApred : ∀ x ∈ A, (fun x => x.name == n && x.score == sc) x = false := by
    intro x hx
    have hxs : x ∈ scores := (List.takeWhile_sublist _).subset hx
    have := hnodup x hxs
    simp only [Bool.and_eq_false_imp, beq_eq_false_iff_ne, ne_eq, beq_iff_eq]
    intro h1
    exact fun h2 => this ⟨h1, h2⟩
  have hfind : findRank (fun x => x.name == n && x.score == sc) (A ++ e :: B) =
      some A.length := findRank_append_first A B hApred hpe
  have hadd2 : (add_score scores n sc).2 =
      if (A.length : Int) < 10 then (A.length : Int) else -1 := by
    simp only [add_score, he] at *
    rw [hsort, hsplit, hfind]
  have hadd1 : (add_score scores n sc).1 = (A ++ e :: B).take 10 := by
    simp only [add_score, he] at *
    rw [hsort, hsplit]
  constructor
  · intro hlt
    refine ⟨by rw [hadd2, if_pos (by exact_mod_cast hlt)], ?_⟩
    rw [hadd1, getD_take _ _ _ _ hlt, getD_append_cons]
  · intro hge
    have hnot : ¬ (A.length : Int) < 10 := by exact_mod_cast Nat.not_lt.mpr hge
    refine ⟨by rw [hadd2, if_neg hnot], ?_⟩
    rw [hadd1, List.take_append_of_le_length (by omega)]
    intro hmem
    have hmem2 : e ∈ A := (List.take_sublist _ _).subset hmem
    have := hApred e hmem2
    rw [hpe] at this
    exact Bool.noConfusion this

/-- Witness for C6 on a concrete duplicate-free table. -/
theorem C6_witness :
    ((([⟨"BBB", 7⟩] : List Entry).takeWhile (fun y => 5 ≤ y.score)).length < 10 →
      (add_score [⟨"BBB", 7⟩] "AAA" 5).2 =
        ((([⟨"BBB", 7⟩] : List Entry).takeWhile (fun y => 5 ≤ y.score)).length : Int) ∧
      (add_score [⟨"BBB", 7⟩] "AAA" 5).1.getD
        (([⟨"BBB", 7⟩] : List Entry).takeWhile (fun y => 5 ≤ y.score)).length default =
        ⟨"AAA", 5⟩) ∧
    (10 ≤ (([⟨"BBB", 7⟩] : List Entry).takeWhile (fun y => 5 ≤ y.score)).length →
      (add_score [⟨"BBB", 7⟩] "AAA" 5).2 = -1 ∧
      (⟨"AAA", 5⟩ : Entry) ∉ (add_score [⟨"BBB", 7⟩] "AAA" 5).1) :=
  C6_insert_rank [⟨"BBB", 7⟩] "AAA" 5 (by simp [SortedDesc]) (by decide)

/-- A full table of ten score-5 entries whose top entry is "AAA". -/
def dupTable : List Entry :=
  [⟨"AAA", 5⟩, ⟨"BBB", 5⟩, ⟨"CCC", 5⟩, ⟨"DDD", 5⟩, ⟨"EEE", 5⟩,
   ⟨"FFF", 5⟩, ⟨"GGG", 5⟩, ⟨"HHH", 5⟩, ⟨"III", 5⟩, ⟨"JJJ", 5⟩]

/-- C6 counterexample: submitting ("AAA", 5) to a full table of ten
score-5 entries led by ("AAA", 5): the stable sort leaves the new entry at
index 10 (the stored table is unchanged, i.e. the just-inserted entry fell
outside the top 10, so the claim demands `-1`), yet `add_score` returns 0
— the index of the pre-existing duplicate. -/
theorem C6_counterexample :
    pySortDesc (dupTable ++ [⟨"AAA", 5⟩]) = dupTable ++ [⟨"AAA", 5⟩] ∧
    (add_score dupTable "AAA" 5).1 = dupTable ∧
    (add_score dupTable "AAA" 5).2 = 0 := by
  refine ⟨by decide, by decide, by decide⟩

/-- Witness for C1 at a concrete reachable state. -/
theorem C1_witness :
    ((load_scores []).length ≤ 10 ∧ SortedDesc (load_scores [])) ∧
    (add_score (load_scores []) "AAA" 5).1 =
      (insertRight ⟨"AAA", 5⟩ (load_scores [])).take 10 ∧
    (add_score (load_scores []) "AAA" 5).1.length ≤ 10 ∧
    SortedDesc (add_score (load_scores []) "AAA" 5).1 :=
  C1_leaderboard_invariant (load_scores []) (Reachable.loaded []) "AAA" 5

/-! ### Frame Codec: media frames (C5) -/

/-- Standard UTF-8 encoding of one character (what Python's
`str.encode('utf-8')` produces per code point). -/
def utf8EncodeChar (c : Char) : List Nat :=
  let n := c.toNat
  if n < 0x80 then [n]
  else if n < 0x800 then
    [0xC0 ||| (n >>> 6), 0x80 ||| (n &&& 0x3F)]
  else if n < 0x10000 then
    [0xE0 ||| (n >>> 12), 0x80 ||| ((n >>> 6) &&& 0x3F), 0x80 ||| (n &&& 0x3F)]
  else
    [0xF0 ||| (n >>> 18), 0x80 ||| ((n >>> 12) &&& 0x3F),
     0x80 ||| ((n >>> 6) &&& 0x3F), 0x80 ||| (n &&& 0x3F)]

/-- UTF-8 bytes of a character sequence. -/
def utf8Bytes (cs : List Char) : List Nat := cs.flatMap utf8EncodeChar

/-- Model of Python's `media_text.encode('utf-8')`. -/
def pyEncodeUtf8 (s : String) : List Nat := utf8Bytes s.data

/-- `send_media_update`: the 32-byte frame built for a media string —
command byte 0x02, then `media_text.encode('utf-8')[:30]` (a raw byte
slice), a null terminator, and zero padding (the `bytearray(32)` is
zero-initialised). -/
def send_media_update (media_text : String) : List Nat :=
  if media_text ≠ "" then
    let mb := (pyEncodeUtf8 media_text).take 30
    [0x02] ++ mb ++ [0] ++ List.replicate (30 - mb.length) 0
  else [0x02] ++ List.replicate 31 0

/-- C5 (amended): the Media frame is 32 bytes — tag 0x02, then at most 30
bytes of text followed by a null terminator and zero padding; the text is
the raw 30-byte slice of the UTF-8 encoding, a truncation that may split a
multi-byte code point (see the counterexample). -/
theorem C5_media_frame (t : String) :
    (send_media_update t).length = 32 ∧
    send_media_update t =
      0x02 :: ((pyEncodeUtf8 t).take 30 ++
        0 :: List.replicate (30 - ((pyEncodeUtf8 t).take 30).length) 0) ∧
    ((pyEncodeUtf8 t).take 30).length ≤ 30 := by
  by_cases h : t = ""
  · subst h
    exact ⟨rfl, rfl, by simp⟩
  · have hlen : ((pyEncodeUtf8 t).take 30).length ≤ 30 := by simp
    refine ⟨?_, ?_, hlen⟩
    · simp [send_media_update, h]
      omega
    · simp [send_media_update, h]

/-- 29 ASCII characters followed by one two-byte character. -/
def mediaEx : String := "aaaaaaaaaaaaaaaaaaaaaaaaaaaaaé"

/-- C5 counterexample: for `mediaEx` (29 bytes of "a" plus the two-byte
code point "é", 31 UTF-8 bytes in total) the 30-byte slice ends with 0xC3,
the first byte of the split "é" — yet no prefix of the string's characters
encodes to that byte sequence, and cutting after 29 whole characters
(29 bytes ≤ 30) was possible.  So the truncation split a code point that
a shorter whole-code-point cut would have avoided. -/
theorem C5_counterexample :
    (pyEncodeUtf8 mediaEx).length = 31 ∧
    ((pyEncodeUtf8 mediaEx).take 30).getD 29 0 = 0xC3 ∧
    (utf8Bytes (mediaEx.data.take 29)).length = 29 ∧
    ((List.range (mediaEx.data.length + 1)).all
      (fun i => utf8Bytes (mediaEx.data.take i) != (pyEncodeUtf8 mediaEx).take 30)) = true := by
  decide

/-! ### Frame Codec: ShowScores frames (C9) -/

/-- Python's `name[:3].ljust(3)`: the first three characters, right-padded
with spaces to exactly three. -/
def pad3 (name : String) : List Char :=
  name.data.take 3 ++ List.replicate (3 - (name.data.take 3).length) ' '

/-- One leaderboard group as `send_show_scores` encodes it: three name
bytes (`ord` of each padded character) then the score clamped to 65535,
big-endian. -/
def scoreGroup (e : Entry) : List Nat :=
  (pad3 e.name).map Char.toNat ++
    [(min e.score 65535 >>> 8) &&& 0xFF, min e.score 65535 &&& 0xFF]

/-- `send_show_scores`: tag 0x12, then up to six groups (the offset check
stops at six), zero padding to 32 bytes.  `none` models the `ValueError`
Python raises when a padded name character is not a byte. -/
def send_show_scores (scores : List Entry) : Option (List Nat) :=
  let entries := (scores.take 10).take 6
  if entries.all (fun e => (pad3 e.name).all (fun c => c.toNat < 256)) then
    some ([0x12] ++ entries.flatMap scoreGroup ++
      List.replicate (31 - 5 * entries.length) 0)
  else none

/-- C9: for byte-valued names, the ShowScores frame is tag 0x12 followed by
one 5-byte group per encoded entry — 3 name bytes then the entry's score
clamped to 65535 in big-endian — and a score above 65535 encodes as
0xFFFF, never as the score modulo 2^16. -/
theorem C9_show_scores_clamped (scores : List Entry)
    (hvalid : ∀ e ∈ (scores.take 10).take 6,
      ∀ c ∈ pad3 e.name, c.toNat < 256) :
    send_show_scores scores =
      some (0x12 :: (((scores.take 10).take 6).flatMap scoreGroup ++
        List.replicate (31 - 5 * ((scores.take 10).take 6).length) 0)) ∧
    (∀ e : Entry, (pad3 e.name).length = 3 ∧
      scoreGroup e = (pad3 e.name).map Char.toNat ++
        [min e.score 65535 / 256, min e.score 65535 % 256]) ∧
    (∀ e : Entry, 65535 < e.score →
      scoreGroup e = (pad3 e.name).map Char.toNat ++ [255, 255]) := by
  have hgroup : ∀ e : Entry, scoreGroup e = (pad3 e.name).map Char.toNat ++
      [min e.score 65535 / 256, min e.score 65535 % 256] := by
    intro e
    have hle : min e.score 65535 ≤ 65535 := Nat.min_le_right _ _
    have hhi : (min e.score 65535 >>> 8) &&& 0xFF = min e.score 65535 / 256 := by
      rw [Nat.shiftRight_eq_div_pow, Nat.and_pow_two_sub_one_eq_mod _ 8]
      have : min e.score 65535 / 2 ^ 8 < 256 := by omega
      omega
    have hlo : min e.score 65535 &&& 0xFF = min e.score 65535 % 256 :=
      Nat.and_pow_two_sub_one_eq_mod _ 8
    rw [scoreGroup, hhi, hlo]
  refine ⟨?_, ?_, ?_⟩
  · have hall : ((scores.take 10).take 6).all
        (fun e => (pad3 e.name).all (fun c => c.toNat < 256)) = true := by
      rw [List.all_eq_true]
      intro e he
      rw [List.all_eq_true]
      intro c hc
      exact decide_eq_true (hvalid e he c hc)
    simp [send_show_scores, hall]
  · intro e
    refine ⟨?_, hgroup e⟩
    simp [pad3]
  · intro e h
    rw [hgroup e]
    have : min e.score 65535 = 65535 := by omega
    rw [this]

/-- Witness for C9 on a concrete table with an overflowing score. -/
theorem C9_witness :
    send_show_scores [⟨"AAA", 70000⟩] =
      some (0x12 :: ((([⟨"AAA", 70000⟩] : List Entry).take 10).take 6).flatMap scoreGroup ++
        List.replicate (31 - 5 * ((([⟨"AAA", 70000⟩] : List Entry).take 10).take 6).length) 0) ∧
    (∀ e : Entry, (pad3 e.name).length = 3 ∧
      scoreGroup e = (pad3 e.name).map Char.toNat ++
        [min e.score 65535 / 256, min e.score 65535 % 256]) ∧
    (∀ e : Entry, 65535 < e.score →
      scoreGroup e = (pad3 e.name).map Char.toNat ++ [255, 255]) :=
  C9_show_scores_clamped [⟨"AAA", 70000⟩] (by decide)

/-! ### The companion session loop

One `tick` models one iteration of the `while True` loop in `main`.
Timestamps are whole time units (seconds).  The per-tick environment
(current time, host telemetry readings, transport outcomes) is a
`TickInput`; `writeOk i` is the outcome of the i-th transport write of the
tick.  Observable actions are collected as `Ev` events in order.
`first_connection` only changes logging and is not modelled. -/

/-- The message kinds the loop can send. -/
inductive Kind
  | volume | media | datetime | weather | enterName | showScores
deriving DecidableEq, Repr

/-- Observable per-tick events, in program order. -/
inductive Ev
  | connectAttempt
  | connectOk
  | connectFail
  | close
  | weatherFetch (ok : Bool)
  | send (k : Kind) (ok : Bool)
deriving DecidableEq, Repr

/-- Session configuration: `--no-weather`, `--weather-interval` (default
600) and `--test-date` (which suppresses the periodic datetime push). -/
structure Config where
  weatherEnabled : Bool
  weatherInterval : Nat
  testDate : Bool

/-- The loop's mutable state: `device is not None`, the leaderboard, the
per-kind last-known values and the cadence timers. -/
structure LoopState where
  connected : Bool
  scores : List Entry
  lastVolume : Option Nat
  lastMedia : Option String
  lastWeather : Option Nat
  lastConnectAttempt : Nat
  lastConnectionCheck : Nat
  lastMediaCheck : Nat
  lastDatetimeUpdate : Nat
  lastWeatherCheck : Nat
deriving DecidableEq, Repr

/-- Environment of one tick.  `hostMedia = none` models Python's
`get_current_media()` returning `None`; `hostWeather = none` a failed
weather fetch; `inbound = none` an empty HID read. -/
structure TickInput where
  now : Nat
  connectOk : Bool
  kbdPresent : Bool
  inbound : Option (List Nat)
  hostVolume : Option Nat
  hostMedia : Option String
  hostWeather : Option Nat
  writeOk : Nat → Bool

/-- Python truthiness of the media value (`None` and `""` are falsy). -/
def truthy : Option String → Bool
  | some m => m != ""
  | none => false

/-- The disconnect bookkeeping done at every failure site:
`device = None; last_volume = last_media = last_weather = None`
(cadence timers are not reset). -/
def dropConn (st : LoopState) : LoopState :=
  {st with connected := false, lastVolume := none, lastMedia := none,
           lastWeather := none}

/-- `process_game_message`: dispatch one inbound frame.  `none` models an
uncaught `IndexError` from `data[i]`; otherwise the result is the events,
the new score table, the boolean the Python function returns, and the next
write index. -/
def pgm (data : List Nat) (scores : List Entry) (writeOk : Nat → Bool)
    (k : Nat) : Option (List Ev × List Entry × Bool × Nat) :=
  match data with
  | [] => some ([], scores, true, k)
  | t :: rest =>
    if t = 0x10 then
      match rest[0]?, rest[1]? with
      | some b1, some b2 =>
        let score := (b1 <<< 8) ||| b2
        let rank := check_score scores score
        if 0 ≤ rank then
          some ([Ev.send Kind.enterName (writeOk k)], scores, writeOk k, k + 1)
        else
          some ([Ev.send Kind.showScores (writeOk k)], scores, writeOk k, k + 1)
      | _, _ => none
    else if t = 0x13 then
      match rest[0]?, rest[1]?, rest[2]?, rest[3]?, rest[4]? with
      | some b1, some b2, some b3, some b4, some b5 =>
        let name := String.mk [Char.ofNat b1, Char.ofNat b2, Char.ofNat b3]
        let score := (b4 <<< 8) ||| b5
        let r := add_score scores name score
        some ([Ev.send Kind.showScores (writeOk k)], r.1, writeOk k, k + 1)
      | _, _, _, _, _ => none
    else some ([], scores, true, k)

/-- Connect-time weather sync: fetch; on success send, and only a
successful send updates `last_weather` and the cadence timer.  A failed
fetch or a failed send is only logged — the state is left alone and the
session stays connected. -/
def connectWeatherSync (cfg : Config) (st : LoopState) (inp : TickInput)
    (evs : List Ev) (k : Nat) : List Ev × LoopState :=
  if cfg.weatherEnabled then
    match inp.hostWeather with
    | some _ =>
      if inp.writeOk k then
        (evs ++ [Ev.weatherFetch true, Ev.send Kind.weather true],
         {st with lastWeather := inp.hostWeather, lastWeatherCheck := inp.now})
      else (evs ++ [Ev.weatherFetch true, Ev.send Kind.weather false], st)
    | none => (evs ++ [Ev.weatherFetch false], st)
  else (evs, st)

/-- Connect-time datetime sync: always sent; only success updates the
timer; a failure is only logged and the session stays connected. -/
def connectDatetimeSync (cfg : Config) (st : LoopState) (inp : TickInput)
    (evs : List Ev) (k : Nat) : List Ev × LoopState :=
  if inp.writeOk k then
    connectWeatherSync cfg {st with lastDatetimeUpdate := inp.now} inp
      (evs ++ [Ev.send Kind.datetime true]) (k + 1)
  else
    connectWeatherSync cfg st inp (evs ++ [Ev.send Kind.datetime false]) (k + 1)

/-- Connect-time media sync: sent only when media is playing (Python
truthiness), and the write's result is ignored; otherwise `last_media`
is primed to `None` and nothing is sent. -/
def connectMediaSync (cfg : Config) (st : LoopState) (inp : TickInput)
    (evs : List Ev) (k : Nat) : List Ev × LoopState :=
  if truthy inp.hostMedia then
    connectDatetimeSync cfg {st with lastMedia := inp.hostMedia} inp
      (evs ++ [Ev.send Kind.media (inp.writeOk k)]) (k + 1)
  else
    connectDatetimeSync cfg {st with lastMedia := none} inp evs k

/-- The disconnected branch: reconnect attempts are throttled to one per
2 time units; on success the handle is held and the four kinds are synced
(volume first — only its failure tears the fresh connection down). -/
def connectTick (cfg : Config) (st : LoopState) (inp : TickInput) :
    List Ev × LoopState :=
  if 2 ≤ inp.now - st.lastConnectAttempt then
    let st1 := {st with lastConnectAttempt := inp.now}
    if inp.connectOk then
      let st2 := {st1 with connected := true, lastConnectionCheck := inp.now}
      match inp.hostVolume with
      | some v =>
        if inp.writeOk 0 then
          connectMediaSync cfg {st2 with lastVolume := some v} inp
            [Ev.connectAttempt, Ev.connectOk, Ev.send Kind.volume true] 1
        else
          ([Ev.connectAttempt, Ev.connectOk, Ev.send Kind.volume false,
            Ev.close], dropConn st2)
      | none =>
        connectMediaSync cfg {st2 with lastVolume := none} inp
          [Ev.connectAttempt, Ev.connectOk] 0
    else ([Ev.connectAttempt, Ev.connectFail], st1)
  else ([], st)

/-- Steady-state weather cadence: when due, fetch; a fetch failure or an
unchanged value advances the cadence timer; a changed value is sent, and a
send failure disconnects and ends the tick. -/
def steadyWeather (cfg : Config) (st : LoopState) (inp : TickInput)
    (evs : List Ev) (k : Nat) : List Ev × LoopState :=
  if cfg.weatherEnabled ∧ cfg.weatherInterval ≤ inp.now - st.lastWeatherCheck then
    match inp.hostWeather with
    | some _ =>
      if inp.hostWeather ≠ st.lastWeather then
        if inp.writeOk k then
          (evs ++ [Ev.weatherFetch true, Ev.send Kind.weather true],
           {st with lastWeather := inp.hostWeather, lastWeatherCheck := inp.now})
        else
          (evs ++ [Ev.weatherFetch true, Ev.send Kind.weather false, Ev.close],
           dropConn st)
      else (evs ++ [Ev.weatherFetch true], {st with lastWeatherCheck := inp.now})
    | none => (evs ++ [Ev.weatherFetch false], {st with lastWeatherCheck := inp.now})
  else (evs, st)

/-- Steady-state datetime cadence (suppressed under `--test-date`):
a send failure disconnects and ends the tick. -/
def steadyDatetime (cfg : Config) (st : LoopState) (inp : TickInput)
    (evs : List Ev) (k : Nat) : List Ev × LoopState :=
  if ¬cfg.testDate ∧ 60 ≤ inp.now - st.lastDatetimeUpdate then
    if inp.writeOk k then
      steadyWeather cfg {st with lastDatetimeUpdate := inp.now} inp
        (evs ++ [Ev.send Kind.datetime true]) (k + 1)
    else (evs ++ [Ev.send Kind.datetime false, Ev.close], dropConn st)
  else steadyWeather cfg st inp evs k

/-- Steady-state media cadence (once per time unit, change-driven):
a send failure disconnects and ends the tick. -/
def steadyMedia (cfg : Config) (st : LoopState) (inp : TickInput)
    (evs : List Ev) (k : Nat) : List Ev × LoopState :=
  if 1 ≤ inp.now - st.lastMediaCheck then
    let st1 := {st with lastMediaCheck := inp.now}
    if inp.hostMedia ≠ st1.lastMedia then
      if inp.writeOk k then
        steadyDatetime cfg {st1 with lastMedia := inp.hostMedia} inp
          (evs ++ [Ev.send Kind.media true]) (k + 1)
      else (evs ++ [Ev.send Kind.media false, Ev.close], dropConn st1)
    else steadyDatetime cfg st1 inp evs k
  else steadyDatetime cfg st inp evs k

/-- Steady-state volume stage (every tick, change-driven): a send failure
disconnects and ends the tick. -/
def steadyVolume (cfg : Config) (st : LoopState) (inp : TickInput)
    (evs : List Ev) (k : Nat) : List Ev × LoopState :=
  match inp.hostVolume with
  | some v =>
    if (some v : Option Nat) ≠ st.lastVolume then
      if inp.writeOk k then
        steadyMedia cfg {st with lastVolume := some v} inp
          (evs ++ [Ev.send Kind.volume true]) (k + 1)
      else (evs ++ [Ev.send Kind.volume false, Ev.close], dropConn st)
    else steadyMedia cfg st inp evs k
  | none => steadyMedia cfg st inp evs k

/-- Inbound stage: one bounded read; a raised error inside dispatch is
swallowed by the surrounding `try` (the tick proceeds); a `False` return
(a failed response send) disconnects and ends the tick. -/
def steadyInbound (cfg : Config) (st : LoopState) (inp : TickInput) :
    List Ev × LoopState :=
  match inp.inbound with
  | none => steadyVolume cfg st inp [] 0
  | some data =>
    match pgm data st.scores inp.writeOk 0 with
    | none => steadyVolume cfg st inp [] 0
    | some (evs, scores2, ok, k) =>
      let st1 := {st with scores := scores2}
      if ok then steadyVolume cfg st1 inp evs k
      else (evs ++ [Ev.close], dropConn st1)

/-- The connected branch: liveness probe (once per time unit), then
inbound dispatch, then the four cadences. -/
def connectedTick (cfg : Config) (st : LoopState) (inp : TickInput) :
    List Ev × LoopState :=
  if 1 ≤ inp.now - st.lastConnectionCheck then
    let st1 := {st with lastConnectionCheck := inp.now}
    if inp.kbdPresent then steadyInbound cfg st1 inp
    else ([Ev.close], dropConn st1)
  else steadyInbound cfg st inp

/-- One full iteration of the main loop. -/
def tick (cfg : Config) (st : LoopState) (inp : TickInput) :
    List Ev × LoopState :=
  if st.connected then connectedTick cfg st inp else connectTick cfg st inp

/-! ### C4: inbound dispatch of short frames -/

/-- C4 (amended): an empty frame, or any frame whose tag byte is not a
game tag (0x10 or 0x13), is dispatched without error and without touching
the leaderboard.  But a truncated 0x10 frame with fewer than 3 bytes, or a
truncated 0x13 frame with fewer than 6 bytes, raises an uncaught
`IndexError` (`pgm` returns `none`) instead of being a no-op. -/
theorem C4_short_frames (t : Nat) (rest : List Nat) (scores : List Entry)
    (w : Nat → Bool) (k : Nat) :
    (pgm [] scores w k = some ([], scores, true, k)) ∧
    (t ≠ 0x10 → t ≠ 0x13 → pgm (t :: rest) scores w k = some ([], scores, true, k)) ∧
    (t = 0x10 → rest.length < 2 → pgm (t :: rest) scores w k = none) ∧
    (t = 0x13 → rest.length < 5 → pgm (t :: rest) scores w k = none) := by
  refine ⟨rfl, ?_, ?_, ?_⟩
  · intro h1 h2
    simp [pgm, h1, h2]
  · intro ht hlen
    subst ht
    rcases rest with _ | ⟨b1, rest1⟩
    · rfl
    · rcases rest1 with _ | ⟨b2, rest2⟩
      · rfl
      · exfalso; simp at hlen; omega
  · intro ht hlen
    subst ht
    rcases rest with _ | ⟨b1, rest1⟩
    · rfl
    · rcases rest1 with _ | ⟨b2, rest2⟩
      · rfl
      · rcases rest2 with _ | ⟨b3, rest3⟩
        · rfl
        · rcases rest3 with _ | ⟨b4, rest4⟩
          · rfl
          · rcases rest4 with _ | ⟨b5, rest5⟩
            · rfl
            · exfalso; simp at hlen; omega

/-- Witness for C4 on concrete frames. -/
theorem C4_witness :
    pgm [] [] (fun _ => true) 0 = some ([], [], true, 0) ∧
    pgm [0x11] [] (fun _ => true) 0 = some ([], [], true, 0) ∧
    pgm [0x10, 7] [] (fun _ => true) 0 = none ∧
    pgm [0x13, 65, 66, 67] [] (fun _ => true) 0 = none :=
  ⟨(C4_short_frames 0x11 [] [] (fun _ => true) 0).1,
   (C4_short_frames 0x11 [] [] (fun _ => true) 0).2.1 (by decide) (by decide),
   (C4_short_frames 0x10 [7] [] (fun _ => true) 0).2.2.1 rfl (by decide),
   (C4_short_frames 0x13 [65, 66, 67] [] (fun _ => true) 0).2.2.2 rfl (by decide)⟩

/-- C4 counterexample: the one-byte truncated frame `[0x10]` (a ScoreSubmit
tag with its payload cut off) makes `process_game_message` raise an
`IndexError` at `data[1]` — it does not complete without error. -/
theorem C4_counterexample : pgm [0x10] [] (fun _ => true) 0 = none := rfl

/-! ### C3: the connect-time sync pass -/

/-- A weather-enabled session configuration with the default 600-unit
weather interval and no date override. -/
def cfgEx : Config := ⟨true, 600, false⟩

/-- The initial loop state: disconnected, empty table, no last-known
values, all timers at 0. -/
def stIdle : LoopState := ⟨false, [], none, none, none, 0, 0, 0, 0, 0⟩

/-- C3 (amended): when a reconnect attempt is due and succeeds and every
write succeeds, the connect pass sends, in order: a volume frame only if
the volume is readable, a media frame only if media is currently playing,
a datetime frame always, and (when weather is enabled) a weather frame
only if the fetch succeeds.  In particular, when no media is playing no
media frame is sent. -/
theorem C3_connect_sync (cfg : Config) (st : LoopState) (inp : TickInput)
    (hc : st.connected = false) (hdue : 2 ≤ inp.now - st.lastConnectAttempt)
    (hok : inp.connectOk = true) (hw : ∀ i, inp.writeOk i = true) :
    (tick cfg st inp).1 =
      [Ev.connectAttempt, Ev.connectOk]
      ++ (match inp.hostVolume with
          | some _ => [Ev.send Kind.volume true]
          | none => [])
      ++ (if truthy inp.hostMedia then [Ev.send Kind.media true] else [])
      ++ [Ev.send Kind.datetime true]
      ++ (if cfg.weatherEnabled then
            match inp.hostWeather with
            | some _ => [Ev.weatherFetch true, Ev.send Kind.weather true]
            | none => [Ev.weatherFetch false]
          else []) := by
  by_cases hm : truthy inp.hostMedia <;>
    by_cases hwea : cfg.weatherEnabled <;>
      cases hwf : inp.hostWeather <;>
        cases hv : inp.hostVolume <;>
          simp [tick, connectTick, connectMediaSync, connectDatetimeSync,
            connectWeatherSync, hc, hdue, hok, hw, hm, hwea, hwf, hv]

/-- A connect-time input with readable volume, no media playing, and a
successful weather fetch. -/
def inpNoMedia : TickInput := ⟨10, true, true, none, some 40, none, some 0, fun _ => true⟩

/-- C3 counterexample: on the pass that takes the session from
Disconnected to Connected with no media playing, the loop sends volume,
datetime and weather frames but no media frame at all — not all four
telemetry kinds are pushed. -/
theorem C3_counterexample :
    (tick cfgEx stIdle inpNoMedia).2.connected = true ∧
    (tick cfgEx stIdle inpNoMedia).1 =
      [Ev.connectAttempt, Ev.connectOk, Ev.send Kind.volume true,
       Ev.send Kind.datetime true, Ev.weatherFetch true,
       Ev.send Kind.weather true] ∧
    Ev.send Kind.media true ∉ (tick cfgEx stIdle inpNoMedia).1 ∧
    Ev.send Kind.media false ∉ (tick cfgEx stIdle inpNoMedia).1 := by
  refine ⟨by decide, by decide, by decide, by decide⟩

/-- Witness for C3 with media playing. -/
theorem C3_witness :
    (tick cfgEx stIdle ⟨10, true, true, none, some 40, some "X", some 0, fun _ => true⟩).1 =
      [Ev.connectAttempt, Ev.connectOk]
      ++ (match (⟨10, true, true, none, some 40, some "X", some 0, fun _ => true⟩ : TickInput).hostVolume with
          | some _ => [Ev.send Kind.volume true]
          | none => [])
      ++ (if truthy (⟨10, true, true, none, some 40, some "X", some 0, fun _ => true⟩ : TickInput).hostMedia
          then [Ev.send Kind.media true] else [])
      ++ [Ev.send Kind.datetime true]
      ++ (if cfgEx.weatherEnabled then
            match (⟨10, true, true, none, some 40, some "X", some 0, fun _ => true⟩ : TickInput).hostWeather with
            | some _ => [Ev.weatherFetch true, Ev.send Kind.weather true]
            | none => [Ev.weatherFetch false]
          else []) :=
  C3_connect_sync cfgEx stIdle _ rfl (by decide) rfl (fun i => rfl)

/-! ### C7 and C8: failure handling in the steady-state pass -/

/-- No failed send occurs in the event list. -/
def CleanEvs (l : List Ev) : Prop := ∀ kd, Ev.send kd false ∉ l

/-- No weather fetch occurs in the event list. -/
def NoFetch (l : List Ev) : Prop := ∀ b, Ev.weatherFetch b ∉ l

/-- What every steady-state stage guarantees about the finished tick:
a failed send disconnects, closes the handle and ends the tick right
there (the events are clean sends, then the failed send, then the close);
the reconnect throttle timestamp is untouched; a failed weather fetch
advances the weather cadence timer to the current time; and no fetch at
all happens before the weather cadence interval has elapsed. -/
def SGood (cfg : Config) (st : LoopState) (inp : TickInput)
    (out : List Ev × LoopState) : Prop :=
  (∀ kd, Ev.send kd false ∈ out.1 →
    out.2.connected = false ∧
    ∃ pre, CleanEvs pre ∧ out.1 = pre ++ [Ev.send kd false, Ev.close]) ∧
  out.2.lastConnectAttempt = st.lastConnectAttempt ∧
  (Ev.weatherFetch false ∈ out.1 → out.2.lastWeatherCheck = inp.now) ∧
  (inp.now - st.lastWeatherCheck < cfg.weatherInterval → NoFetch out.1)

theorem cleanEvs_nil : CleanEvs [] := by intro kd h; simp at h

theorem noFetch_nil : NoFetch [] := by intro b h; simp at h

theorem cleanEvs_append {evs tail : List Ev} (h1 : CleanEvs evs)
    (h2 : CleanEvs tail) : CleanEvs (evs ++ tail) := by
  intro kd hm
  rcases List.mem_append.mp hm with h | h
  · exact h1 kd h
  · exact h2 kd h

theorem noFetch_append {evs tail : List Ev} (h1 : NoFetch evs)
    (h2 : NoFetch tail) : NoFetch (evs ++ tail) := by
  intro b hm
  rcases List.mem_append.mp hm with h | h
  · exact h1 b h
  · exact h2 b h

/-- The common disconnect-and-abort shape of every steady-state send
failure. -/
theorem abort_good (cfg : Config) (st : LoopState) (inp : TickInput)
    (stX : LoopState) (evs : List Ev) (kd0 : Kind)
    (hcl : CleanEvs evs) (hnf : NoFetch evs)
    (hlca : stX.lastConnectAttempt = st.lastConnectAttempt) :
    SGood cfg st inp (evs ++ [Ev.send kd0 false, Ev.close], dropConn stX) := by
  refine ⟨?_, by simp [dropConn, hlca], ?_, ?_⟩
  · intro kd hmem
    rcases List.mem_append.mp hmem with h | h
    · exact absurd h (hcl kd)
    · have hk : kd = kd0 := by simpa using h
      subst hk
      exact ⟨by simp [dropConn], evs, hcl, rfl⟩
  · intro hmem
    rcases List.mem_append.mp hmem with h | h
    · exact absurd h (hnf false)
    · simp at h
  · intro _
    refine noFetch_append hnf ?_
    intro b h
    simp at h

theorem steadyWeather_good (cfg : Config) (st : LoopState) (inp : TickInput)
    (evs : List Ev) (k : Nat) (hcl : CleanEvs evs) (hnf : NoFetch evs) :
    SGood cfg st inp (steadyWeather cfg st inp evs k) := by
  unfold steadyWeather
  by_cases hdue : cfg.weatherEnabled ∧ cfg.weatherInterval ≤ inp.now - st.lastWeatherCheck
  · simp only [if_pos hdue]
    have hndue : ¬ inp.now - st.lastWeatherCheck < cfg.weatherInterval := by omega
    rcases hwf : inp.hostWeather with _ | w
    · refine ⟨?_, rfl, fun _ => rfl, fun hlt => absurd hlt hndue⟩
      intro kd hmem
      rcases List.mem_append.mp hmem with h | h
      · exact absurd h (hcl kd)
      · simp at h
    · by_cases hch : (some w : Option Nat) ≠ st.lastWeather
      · by_cases hwr : inp.writeOk k = true
        · simp only [if_pos hch, hwr, if_true]
          refine ⟨?_, rfl, fun _ => rfl, fun hlt => absurd hlt hndue⟩
          intro kd hmem
          rcases List.mem_append.mp hmem with h | h
          · exact absurd h (hcl kd)
          · simp at h
        · have hwr2 : inp.writeOk k = false := by
            cases h : inp.writeOk k
            · rfl
            · exact absurd h hwr
          simp only [if_pos hch, hwr2, Bool.false_eq_true, if_false]
          refine ⟨?_, by simp [dropConn], ?_, fun hlt => absurd hlt hndue⟩
          · intro kd hmem
            rcases List.mem_append.mp hmem with h | h
            · exact absurd h (hcl kd)
            · have hk : kd = Kind.weather := by simpa using h
              subst hk
              exact ⟨by simp [dropConn],
                evs ++ [Ev.weatherFetch true],
                cleanEvs_append hcl (by intro kd2 hh; simp at hh),
                by simp⟩
          · intro hmem
            rcases List.mem_append.mp hmem with h | h
            · exact absurd h (hnf false)
            · simp at h
      · simp only [if_neg hch, if_false]
        refine ⟨?_, rfl, fun _ => rfl, fun hlt => absurd hlt hndue⟩
        intro kd hmem
        rcases List.mem_append.mp hmem with h | h
        · exact absurd h (hcl kd)
        · simp at h
  · simp only [if_neg hdue]
    exact ⟨fun kd hmem => absurd hmem (hcl kd), rfl,
      fun hmem => absurd hmem (hnf false), fun _ => hnf⟩

theorem steadyDatetime_good (cfg : Config) (st : LoopState) (inp : TickInput)
    (evs : List Ev) (k : Nat) (hcl : CleanEvs evs) (hnf : NoFetch evs) :
    SGood cfg st inp (steadyDatetime cfg st inp evs k) := by
  unfold steadyDatetime
  by_cases hdue : ¬cfg.testDate ∧ 60 ≤ inp.now - st.lastDatetimeUpdate
  · simp only [if_pos hdue]
    by_cases hwr : inp.writeOk k = true
    · simp only [hwr, if_true]
      exact steadyWeather_good cfg _ inp _ (k + 1)
        (cleanEvs_append hcl (by intro kd h; simp at h))
        (noFetch_append hnf (by intro b h; simp at h))
    · have hwr2 : inp.writeOk k = false := by
        cases h : inp.writeOk k
        · rfl
        · exact absurd h hwr
      simp only [hwr2, Bool.false_eq_true, if_false]
      exact abort_good cfg st inp st evs Kind.datetime hcl hnf rfl
  · simp only [if_neg hdue]
    exact steadyWeather_good cfg st inp evs k hcl hnf

theorem steadyMedia_good (cfg : Config) (st : LoopState) (inp : TickInput)
    (evs : List Ev) (k : Nat) (hcl : CleanEvs evs) (hnf : NoFetch evs) :
    SGood cfg st inp (steadyMedia cfg st inp evs k) := by
  unfold steadyMedia
  dsimp only
  by_cases hdue : 1 ≤ inp.now - st.lastMediaCheck
  · simp only [if_pos hdue]
    by_cases hch : inp.hostMedia ≠ st.lastMedia
    · simp only [if_pos hch]
      by_cases hwr : inp.writeOk k = true
      · simp only [hwr, if_true]
        exact steadyDatetime_good cfg _ inp _ (k + 1)
          (cleanEvs_append hcl (by intro kd h; simp at h))
          (noFetch_append hnf (by intro b h; simp at h))
      · have hwr2 : inp.writeOk k = false := by
          cases h : inp.writeOk k
          · rfl
          · exact absurd h hwr
        simp only [hwr2, Bool.false_eq_true, if_false]
        exact abort_good cfg st inp _ evs Kind.media hcl hnf rfl
    · simp only [if_neg hch]
      exact steadyDatetime_good cfg _ inp evs k hcl hnf
  · simp only [if_neg hdue]
    exact steadyDatetime_good cfg st inp evs k hcl hnf

theorem steadyVolume_good (cfg : Config) (st : LoopState) (inp : TickInput)
    (evs : List Ev) (k : Nat) (hcl : CleanEvs evs) (hnf : NoFetch evs) :
    SGood cfg st inp (steadyVolume cfg st inp evs k) := by
  unfold steadyVolume
  rcases hv : inp.hostVolume with _ | v
  · exact steadyMedia_good cfg st inp evs k hcl hnf
  · by_cases hch : (some v : Option Nat) ≠ st.lastVolume
    · simp only [if_pos hch]
      by_cases hwr : inp.writeOk k = true
      · simp only [hwr, if_true]
        exact steadyMedia_good cfg _ inp _ (k + 1)
          (cleanEvs_append hcl (by intro kd h; simp at h))
          (noFetch_append hnf (by intro b h; simp at h))
      · have hwr2 : inp.writeOk k = false := by
          cases h : inp.writeOk k
          · rfl
          · exact absurd h hwr
        simp only [hwr2, Bool.false_eq_true, if_false]
        exact abort_good cfg st inp st evs Kind.volume hcl hnf rfl
    · simp only [if_neg hch]
      exact steadyMedia_good cfg st inp evs k hcl hnf

/-- Shape of `process_game_message` results: an error, a silent success,
or exactly one response send whose success is also the returned boolean. -/
theorem pgm_out (data : List Nat) (scores : List Entry) (w : Nat → Bool)
    (k : Nat) :
    pgm data scores w k = none ∨
    (∃ sc, pgm data scores w k = some ([], sc, true, k)) ∨
    (∃ kd b sc, pgm data scores w k = some ([Ev.send kd b], sc, b, k + 1)) := by
  rcases data with _ | ⟨t, rest⟩
  · exact Or.inr (Or.inl ⟨scores, rfl⟩)
  · unfold pgm
    by_cases h10 : t = 0x10
    · simp only [if_pos h10]
      rcases h0 : rest[0]? with _ | b1
      · exact Or.inl rfl
      · rcases h1 : rest[1]? with _ | b2
        · exact Or.inl rfl
        · dsimp only
          split
          · exact Or.inr (Or.inr ⟨Kind.enterName, w k, scores, rfl⟩)
          · exact Or.inr (Or.inr ⟨Kind.showScores, w k, scores, rfl⟩)
    · by_cases h13 : t = 0x13
      · simp only [if_neg h10, if_pos h13]
        rcases h0 : rest[0]? with _ | b1
        · exact Or.inl rfl
        · rcases h1 : rest[1]? with _ | b2
          · exact Or.inl rfl
          · rcases h2 : rest[2]? with _ | b3
            · exact Or.inl rfl
            · rcases h3 : rest[3]? with _ | b4
              · exact Or.inl rfl
              · rcases h4 : rest[4]? with _ | b5
                · exact Or.inl rfl
                · exact Or.inr (Or.inr ⟨Kind.showScores, w k, _, rfl⟩)
      · simp only [if_neg h10, if_neg h13]
        exact Or.inr (Or.inl ⟨scores, rfl⟩)

theorem steadyInbound_good (cfg : Config) (st : LoopState) (inp : TickInput) :
    SGood cfg st inp (steadyInbound cfg st inp) := by
  unfold steadyInbound
  rcases hin : inp.inbound with _ | data
  · exact steadyVolume_good cfg st inp [] 0 cleanEvs_nil noFetch_nil
  · dsimp only
    rcases pgm_out data st.scores inp.writeOk 0 with hp | ⟨sc, hp⟩ | ⟨kd, b, sc, hp⟩
    · rw [hp]
      exact steadyVolume_good cfg st inp [] 0 cleanEvs_nil noFetch_nil
    · rw [hp]
      dsimp only
      rw [if_pos rfl]
      exact steadyVolume_good cfg _ inp [] 0 cleanEvs_nil noFetch_nil
    · rw [hp]
      dsimp only
      cases b with
      | true =>
        rw [if_pos rfl]
        exact steadyVolume_good cfg _ inp [Ev.send kd true] 1
          (by intro kd2 h; simp at h) (by intro b2 h; simp at h)
      | false =>
        rw [if_neg (by simp)]
        exact abort_good cfg st inp _ [] kd cleanEvs_nil noFetch_nil rfl

theorem connectedTick_good (cfg : Config) (st : LoopState) (inp : TickInput) :
    SGood cfg st inp (connectedTick cfg st inp) := by
  unfold connectedTick
  dsimp only
  by_cases hdue : 1 ≤ inp.now - st.lastConnectionCheck
  · simp only [if_pos hdue]
    by_cases hkbd : inp.kbdPresent = true
    · simp only [hkbd, if_true]
      exact steadyInbound_good cfg _ inp
    · have hkbd2 : inp.kbdPresent = false := by
        cases h : inp.kbdPresent
        · rfl
        · exact absurd h hkbd
      simp only [hkbd2, Bool.false_eq_true, if_false]
      refine ⟨?_, by simp [dropConn], ?_, ?_⟩
      · intro kd hmem
        simp at hmem
      · intro hmem
        simp at hmem
      · intro _ b hb
        simp at hb
  · simp only [if_neg hdue]
    exact steadyInbound_good cfg st inp

/-- C7 (amended): while the session is in its steady Connected state, any
failed transport write disconnects in the same tick (handle closed, the
failed send is the last send of the tick, followed only by the close) and
leaves the reconnect throttle timestamp untouched; and while Disconnected,
a tick within 2 time units of the last connection attempt does nothing at
all — no write is attempted until the backoff has elapsed.  (During the
connect-time initial sync this does not hold: media, datetime and weather
sync failures leave the session connected — see the counterexample.) -/
theorem C7_steady_write_failure (cfg : Config) (st : LoopState)
    (inp : TickInput) (hc : st.connected = true) :
    (∀ kd, Ev.send kd false ∈ (tick cfg st inp).1 →
      (tick cfg st inp).2.connected = false ∧
      ∃ pre, CleanEvs pre ∧
        (tick cfg st inp).1 = pre ++ [Ev.send kd false, Ev.close]) ∧
    (tick cfg st inp).2.lastConnectAttempt = st.lastConnectAttempt ∧
    (∀ (st2 : LoopState) (inp2 : TickInput), st2.connected = false →
      inp2.now - st2.lastConnectAttempt < 2 → tick cfg st2 inp2 = ([], st2)) := by
  have h : SGood cfg st inp (tick cfg st inp) := by
    unfold tick
    rw [if_pos hc]
    exact connectedTick_good cfg st inp
  refine ⟨h.1, h.2.1, ?_⟩
  intro st2 inp2 hc2 hlt
  unfold tick connectTick
  rw [if_neg (by simp [hc2]), if_neg (by omega)]

/-- C8 (amended): in the steady Connected state, a failed weather poll
advances the cadence timer to the current time, and no weather fetch at
all is attempted before a full weather interval has elapsed since the
timer was last set.  (The connect-time weather poll does not obey this:
its failure leaves the timer unchanged — see the counterexample.) -/
theorem C8_weather_backoff (cfg : Config) (st : LoopState) (inp : TickInput)
    (hc : st.connected = true) :
    (Ev.weatherFetch false ∈ (tick cfg st inp).1 →
      (tick cfg st inp).2.lastWeatherCheck = inp.now) ∧
    (inp.now - st.lastWeatherCheck < cfg.weatherInterval →
      ∀ b, Ev.weatherFetch b ∉ (tick cfg st inp).1) := by
  have h : SGood cfg st inp (tick cfg st inp) := by
    unfold tick
    rw [if_pos hc]
    exact connectedTick_good cfg st inp
  exact ⟨h.2.2.1, h.2.2.2⟩

/-- A steady connected state: empty table, no last-known values, last
connection attempt at time 3, all cadence timers at 0. -/
def stConn : LoopState := ⟨true, [], none, none, none, 3, 0, 0, 0, 0⟩

/-- A steady input at time 5 whose every transport write fails, with a
readable (changed) volume. -/
def inpVolFail : TickInput := ⟨5, true, true, none, some 10, none, none, fun _ => false⟩

/-- Witness for C7: a failed volume write in a steady tick, and a
disconnected tick inside the backoff window. -/
theorem C7_witness :
    ((tick cfgEx stConn inpVolFail).2.connected = false ∧
      ∃ pre, CleanEvs pre ∧
        (tick cfgEx stConn inpVolFail).1 =
          pre ++ [Ev.send Kind.volume false, Ev.close]) ∧
    (tick cfgEx stConn inpVolFail).2.lastConnectAttempt =
      stConn.lastConnectAttempt ∧
    tick cfgEx stIdle ⟨1, false, false, none, none, none, none, fun _ => true⟩ =
      ([], stIdle) := by
  have h := C7_steady_write_failure cfgEx stConn inpVolFail rfl
  exact ⟨h.1 Kind.volume (by decide), h.2.1,
    h.2.2 stIdle ⟨1, false, false, none, none, none, none, fun _ => true⟩ rfl
      (by decide)⟩

/-- A connect-time input at time 10 with media playing whose first write
(the media sync — volume is unreadable) fails and later writes succeed. -/
def inpMediaFail : TickInput :=
  ⟨10, true, true, none, none, some "X", none, fun i => i ≠ 0⟩

/-- C7 counterexample: on the tick that connects, the media sync write
fails while the session is Connected, yet the session stays Connected, the
handle stays open, and the tick goes on to send the datetime frame after
the failure — no disconnect, no abandoned remainder, and the next write
happens immediately rather than after the 2-unit backoff. -/
theorem C7_counterexample :
    Ev.send Kind.media false ∈ (tick cfgEx stIdle inpMediaFail).1 ∧
    (tick cfgEx stIdle inpMediaFail).2.connected = true ∧
    (tick cfgEx stIdle inpMediaFail).1 =
      [Ev.connectAttempt, Ev.connectOk, Ev.send Kind.media false,
       Ev.send Kind.datetime true, Ev.weatherFetch false] := by
  refine ⟨by decide, by decide, by decide⟩

/-- A steady connected state whose weather cadence timer was last set at
time 900. -/
def stRecent : LoopState := ⟨true, [], none, none, none, 3, 0, 0, 0, 900⟩

/-- A steady input at time 1000 whose weather fetch fails and whose writes
succeed. -/
def inpWFail : TickInput := ⟨1000, true, true, none, none, none, none, fun _ => true⟩

/-- Witness for C8: a failed steady poll advances the timer to the current
time, and a state polled 100 units ago (interval 600) fetches nothing. -/
theorem C8_witness :
    (tick cfgEx stConn inpWFail).2.lastWeatherCheck = 1000 ∧
    Ev.weatherFetch false ∉ (tick cfgEx stRecent inpWFail).1 := by
  have h1 := C8_weather_backoff cfgEx stConn inpWFail rfl
  have h2 := C8_weather_backoff cfgEx stRecent inpWFail rfl
  exact ⟨h1.1 (by decide), h2.2 (by decide) false⟩

/-- The connect-time input at time 1000 with a failing weather fetch. -/
def inpWConnFail : TickInput := ⟨1000, true, true, none, none, none, none, fun _ => true⟩

/-- The same environment one time unit later. -/
def inpWNext : TickInput := ⟨1001, true, true, none, none, none, none, fun _ => true⟩

/-- C8 counterexample: the weather poll performed at connection time fails
at t = 1000 but leaves the cadence timer at 0, so the very next tick
(t = 1001, one unit later, interval 600) polls weather again — the failed
connect-time poll did not push the next attempt a full interval out. -/
theorem C8_counterexample :
    Ev.weatherFetch false ∈ (tick cfgEx stIdle inpWConnFail).1 ∧
    (tick cfgEx stIdle inpWConnFail).2.connected = true ∧
    (tick cfgEx stIdle inpWConnFail).2.lastWeatherCheck = 0 ∧
    Ev.weatherFetch false ∈
      (tick cfgEx (tick cfgEx stIdle inpWConnFail).2 inpWNext).1 := by
  refine ⟨by decide, by decide, by decide, by decide⟩
